import Mathlib

/-!
Verification of `fetch_parties.py`: a script that fetches "State of the
Parties" snapshots from the UK Parliament API for the 1st of every month in a
fixed range and stores each response as a JSON file.

The embedding models:
* calendar dates (`Date`) with the `dateutil.relativedelta(months=1)`
  advancement used at line 100 of the source;
* the HTTP layer as an oracle `Request → HttpOutcome` (a response with a
  status and parsed JSON body, or a transport-level error standing for any
  raised `requests.exceptions.RequestException`);
* the filesystem as a pure value `Fs` (set of created directories plus an
  association list of file contents), with an `Except`-based variant in which
  directory creation and file writes may fail, to reason about propagation of
  filesystem errors;
* console output as an accumulated list of printed lines.

`time.sleep(0.2)` (line 103) has no observable effect on the modelled state
and is omitted.
-/

namespace FetchParties

/-- A calendar date, mirroring Python `datetime.datetime(year, month, day)`
(time-of-day components are never used by the script).  `datetime` guarantees
`1 ≤ month ≤ 12`; that invariant is tracked by `validMonth` below. -/
structure Date where
  year : Nat
  month : Nat
  day : Nat
deriving DecidableEq

/-- The invariant `datetime` enforces on the month component. -/
def validMonth (d : Date) : Prop := 1 ≤ d.month ∧ d.month ≤ 12

instance (d : Date) : Decidable (validMonth d) := by
  unfold validMonth; exact inferInstance

/-- Python `datetime` comparison `current_date <= end_date` (line 89):
lexicographic on (year, month, day). -/
def dateLe (a b : Date) : Prop :=
  a.year < b.year ∨
    (a.year = b.year ∧
      (a.month < b.month ∨ (a.month = b.month ∧ a.day ≤ b.day)))

instance (a b : Date) : Decidable (dateLe a b) := by
  unfold dateLe; exact inferInstance

/-- Zero-based count of months since year 0; a measure used for termination
and range counting. -/
def monthIndex (d : Date) : Nat := d.year * 12 + (d.month - 1)

/-- Gregorian leap-year rule, as in Python's `calendar` module. -/
def isLeap (y : Nat) : Bool :=
  (y % 4 == 0 && y % 100 != 0) || y % 400 == 0

/-- `calendar.monthrange(y, m)[1]`: the number of days of month `m` in year
`y`, used by `relativedelta` to clamp the day component. -/
def daysInMonth (y m : Nat) : Nat :=
  if m = 2 then (if isLeap y then 29 else 28)
  else if m = 4 ∨ m = 6 ∨ m = 9 ∨ m = 11 then 30
  else 31

/-- `date + relativedelta(months=1)` (line 100): add one to the month using
divmod normalisation on the zero-based month, then clamp the day to the length
of the resulting month, exactly as `dateutil.relativedelta.__radd__` does. -/
def addOneMonth (d : Date) : Date :=
  let m0 := d.month - 1 + 1
  let year := d.year + m0 / 12
  let month := m0 % 12 + 1
  ⟨year, month, min d.day (daysInMonth year month)⟩

/-- Decimal rendering padded to two digits, as `strftime` does for `%m`/`%d`. -/
def pad2 (n : Nat) : String :=
  if n < 10 then "0" ++ toString n else toString n

/-- Decimal rendering padded to four digits, as CPython `strftime` does
for `%Y`. -/
def pad4 (n : Nat) : String :=
  if n < 10 then "000" ++ toString n
  else if n < 100 then "00" ++ toString n
  else if n < 1000 then "0" ++ toString n
  else toString n

/-- `date.strftime('%Y-%m-%d')` (lines 26, 60). -/
def fmtDate (d : Date) : String :=
  pad4 d.year ++ "-" ++ pad2 d.month ++ "-" ++ pad2 d.day

/-- A parsed JSON document: the values `json.dump` serialises.  The script
treats response bodies as opaque blobs of this type. -/
inductive Json where
  | null : Json
  | bool (b : Bool) : Json
  | num (n : Int) : Json
  | str (s : String) : Json
  | arr (xs : List Json) : Json
  | obj (kvs : List (String × Json)) : Json

/-- One hexadecimal digit (lower case), for `\uXXXX` escapes. -/
def hexDigit (n : Nat) : Char :=
  if n < 10 then Char.ofNat (48 + n) else Char.ofNat (87 + n)

/-- Four-digit hexadecimal rendering, for `\uXXXX` escapes. -/
def hex4 (n : Nat) : String :=
  String.mk [hexDigit (n / 4096 % 16), hexDigit (n / 256 % 16),
    hexDigit (n / 16 % 16), hexDigit (n % 16)]

/-- How `json.dump(..., ensure_ascii=False)` escapes one character inside a
string literal: only the quote, the backslash and control characters are
escaped; every other character — in particular every non-ASCII character — is
emitted literally. -/
def escChar (c : Char) : String :=
  if c = '"' then "\\\""
  else if c = '\\' then "\\\\"
  else if c = '\n' then "\\n"
  else if c = '\t' then "\\t"
  else if c = '\r' then "\\r"
  else if c.toNat = 8 then "\\b"
  else if c.toNat = 12 then "\\f"
  else if c.toNat < 32 then "\\u" ++ hex4 c.toNat
  else String.singleton c

/-- A JSON string literal under `ensure_ascii=False`. -/
def escString (s : String) : String :=
  "\"" ++ String.join (s.toList.map escChar) ++ "\""

/-- Indentation produced by `json.dump(..., indent=2)` at nesting depth
`lvl`. -/
def jsonIndent (lvl : Nat) : String :=
  String.mk (List.replicate (2 * lvl) ' ')

mutual

/-- `json.dump(data, f, indent=2, ensure_ascii=False)` (line 65): the string
serialisation of a JSON value at nesting depth `lvl`. -/
def dumpJson (lvl : Nat) : Json → String
  | Json.null => "null"
  | Json.bool b => if b then "true" else "false"
  | Json.num n => toString n
  | Json.str s => escString s
  | Json.arr [] => "[]"
  | Json.arr (x :: xs) =>
      "[\n" ++ jsonIndent (lvl + 1) ++ dumpJson (lvl + 1) x ++
        dumpArr (lvl + 1) xs ++ "\n" ++ jsonIndent lvl ++ "]"
  | Json.obj [] => "\x7b\x7d"
  | Json.obj (kv :: kvs) =>
      "\x7b\n" ++ jsonIndent (lvl + 1) ++ escString kv.1 ++ ": " ++
        dumpJson (lvl + 1) kv.2 ++ dumpObj (lvl + 1) kvs ++ "\n" ++
        jsonIndent lvl ++ "\x7d"

/-- Remaining array items, each preceded by the `",\n" ++ indent`
separator `json.dump` uses when `indent` is given. -/
def dumpArr (lvl : Nat) : List Json → String
  | [] => ""
  | x :: xs => ",\n" ++ jsonIndent lvl ++ dumpJson lvl x ++ dumpArr lvl xs

/-- Remaining object members, each preceded by the separator. -/
def dumpObj (lvl : Nat) : List (String × Json) → String
  | [] => ""
  | kv :: kvs =>
      ",\n" ++ jsonIndent lvl ++ escString kv.1 ++ ": " ++
        dumpJson lvl kv.2 ++ dumpObj lvl kvs

end

/-- Top-level serialisation (depth 0). -/
def dumps (j : Json) : String := dumpJson 0 j

/-- An HTTP request as issued by `requests.get(url, timeout=10)` (line 32):
the URL together with the timeout bound passed along. -/
structure Request where
  url : String
  timeout : Nat
deriving DecidableEq

/-- What the network can do with one request: deliver a response (status code
plus parsed JSON body), or raise a `requests.exceptions.RequestException`
(timeout, connection error, DNS failure, invalid JSON body, ...) carrying a
message. -/
inductive HttpOutcome where
  | resp (status : Nat) (body : Json) : HttpOutcome
  | transportError (e : String) : HttpOutcome

/-- The observable behaviour of one `get_parties_data` call: the requests it
issued, its return value, and the lines it printed. -/
structure FetchResult where
  requests : List Request
  result : Option Json
  log : List String

/-- The URL built at line 29 from the endpoint template and the
`YYYY-MM-DD`-formatted date. -/
def partiesUrl (date : Date) : String :=
  "https://members-api.parliament.uk/api/Parties/StateOfTheParties/1/" ++
    fmtDate date

/-- The single request `get_parties_data` issues for a date. -/
def partiesReq (date : Date) : Request := ⟨partiesUrl date, 10⟩

/-- `get_parties_data(date)` (lines 15-44), with the network abstracted as an
oracle `http`.  Formats the date, issues one GET with `timeout=10`; on status
200 returns the parsed body, on any other status prints
`No data for ... (Status: ...)` and returns `None`; on a raised
`RequestException` prints `Error fetching ...` and returns `None`. -/
def get_parties_data (http : Request → HttpOutcome) (date : Date) :
    FetchResult :=
  let date_str := fmtDate date
  let url :=
    "https://members-api.parliament.uk/api/Parties/StateOfTheParties/1/" ++
      date_str
  let req : Request := ⟨url, 10⟩
  match http req with
  | HttpOutcome.resp status body =>
      if status = 200 then ⟨[req], some body, []⟩
      else
        ⟨[req], none,
          ["No data for " ++ date_str ++ " (Status: " ++ toString status ++
            ")"]⟩
  | HttpOutcome.transportError e =>
      ⟨[req], none, ["Error fetching " ++ date_str ++ ": " ++ e]⟩

/-- The filesystem state the script can observe: which directories exist and
an association list from file paths to contents (later writes shadow earlier
ones, so lookup order models overwriting). -/
structure Fs where
  dirs : List String
  files : List (String × String)
deriving DecidableEq

/-- `os.makedirs(output_dir, exist_ok=True)` (line 57): create the directory
if it does not exist; succeed silently if it does. -/
def makedirs (dir : String) (fs : Fs) : Fs :=
  if dir ∈ fs.dirs then fs else { fs with dirs := dir :: fs.dirs }

/-- First match in an association list of files. -/
def lookupFile : List (String × String) → String → Option String
  | [], _ => none
  | (k, v) :: rest, path => if k = path then some v else lookupFile rest path

/-- The content of the file at `path`, if it exists. -/
def fsRead (fs : Fs) (path : String) : Option String :=
  lookupFile fs.files path

/-- `save_parties_data(date, data, output_dir)` (lines 47-67): ensure the
directory exists, build the `YYYY-MM-DD.json` filename, write the
`indent=2, ensure_ascii=False` serialisation of `data` to
`os.path.join(output_dir, filename)` (overwriting any existing file), and
print `Saved: <filename>`.  In the source `output_dir` defaults to
`"parties_data"`; callers here pass it explicitly. -/
def save_parties_data (date : Date) (data : Json) (output_dir : String)
    (fs : Fs) : Fs × List String :=
  let fs1 := makedirs output_dir fs
  let filename := fmtDate date ++ ".json"
  let filepath := output_dir ++ "/" ++ filename
  let fs2 := { fs1 with files := (filepath, dumps data) :: fs1.files }
  (fs2, ["Saved: " ++ filename])

/-- The in-memory state threaded through the `while` loop of `main`:
the two counters (lines 82-83), the filesystem, and — as observations of the
run — the dates for which a fetch was attempted, the HTTP requests issued,
and the console output. -/
structure RunState where
  success_count : Nat
  failure_count : Nat
  fs : Fs
  attempted : List Date
  requests : List Request
  log : List String

/-- The bookkeeping common to both branches of one loop iteration: the fetch
attempt for `d` happens, its requests are issued and its output printed. -/
def stepLogged (http : Request → HttpOutcome) (st : RunState) (d : Date) :
    RunState :=
  let fr := get_parties_data http d
  { st with
      attempted := st.attempted ++ [d]
      requests := st.requests ++ fr.requests
      log := st.log ++ fr.log }

/-- The body of one iteration of the `while` loop (lines 90-103): fetch; if a
snapshot came back, save it and bump the success counter, otherwise bump the
failure counter. -/
def loopStep (http : Request → HttpOutcome) (st : RunState) (d : Date) :
    RunState :=
  let fr := get_parties_data http d
  let st1 := stepLogged http st d
  match fr.result with
  | some data =>
      let res := save_parties_data d data "parties_data" st1.fs
      { st1 with
          fs := res.1
          success_count := st1.success_count + 1
          log := st1.log ++ res.2 }
  | none => { st1 with failure_count := st1.failure_count + 1 }

/-- `daysInMonth` is always positive. -/
theorem daysInMonth_pos (y m : Nat) : 1 ≤ daysInMonth y m := by
  unfold daysInMonth
  split
  · split <;> omega
  · split <;> omega

/-- Advancing by one month always lands on a valid month. -/
theorem validMonth_addOneMonth (d : Date) : validMonth (addOneMonth d) := by
  unfold validMonth addOneMonth
  constructor <;> simp <;> omega

/-- Advancing by one month from the 1st lands on the 1st. -/
theorem day_addOneMonth (d : Date) (hd : d.day = 1) :
    (addOneMonth d).day = 1 := by
  unfold addOneMonth
  simp only [hd]
  exact Nat.min_eq_left (daysInMonth_pos _ _)

/-- Advancing by one month increments the month index by exactly one. -/
theorem monthIndex_addOneMonth (d : Date) :
    monthIndex (addOneMonth d) = monthIndex d + 1 := by
  unfold monthIndex addOneMonth
  simp only
  omega

/-- `dateLe` implies the month indices are ordered (the month of the left
date must be valid). -/
theorem monthIndex_le_of_dateLe {a b : Date} (hv : validMonth a)
    (h : dateLe a b) : monthIndex a ≤ monthIndex b := by
  unfold validMonth at hv
  unfold dateLe at h
  unfold monthIndex
  omega

/-- For valid first-of-month dates, ordered month indices imply `dateLe`. -/
theorem dateLe_of_monthIndex_le {a b : Date} (hva : validMonth a)
    (hvb : validMonth b) (hda : a.day = 1) (hdb : b.day = 1)
    (h : monthIndex a ≤ monthIndex b) : dateLe a b := by
  unfold validMonth at hva hvb
  unfold monthIndex at h
  unfold dateLe
  omega

/-- The `while current_date <= end_date` loop of `main` (lines 89-103),
parameterised by the network oracle and the end date.  The `validMonth`
argument records the `datetime` invariant of the cursor, which `datetime`
itself guarantees; it is what makes the loop's termination provable. -/
def fetchLoop (http : Request → HttpOutcome) (endD : Date) (cur : Date)
    (hv : validMonth cur) (st : RunState) : RunState :=
  if h : dateLe cur endD then
    fetchLoop http endD (addOneMonth cur) (validMonth_addOneMonth cur)
      (loopStep http st cur)
  else st
termination_by monthIndex endD + 1 - monthIndex cur
decreasing_by
  have h1 := monthIndex_addOneMonth cur
  have h2 := monthIndex_le_of_dateLe hv h
  omega

/-- The first `n` dates visited starting from `d`, advancing one month per
step: the reference shape of the cursor sequence. -/
def monthSeq : Date → Nat → List Date
  | _, 0 => []
  | d, n + 1 => d :: monthSeq (addOneMonth d) n

/-- `start_date = datetime(1980, 1, 1)` (line 75). -/
def start_date : Date := ⟨1980, 1, 1⟩

/-- `end_date = datetime(1990, 1, 1)` (line 79).  Note the module docstring
speaks of "January 1990 to present", but the code fixes this constant. -/
def end_date : Date := ⟨1990, 1, 1⟩

/-- The month count printed in the header (line 86):
`(end.year - start.year) * 12 + (end.month - start.month) + 1`. -/
def totalMonthsHeader : Nat :=
  (end_date.year - start_date.year) * 12 +
    (end_date.month - start_date.month) + 1

/-- The number of first-of-month dates in the inclusive range `[a, b]`. -/
def monthsInRange (a b : Date) : Nat := monthIndex b + 1 - monthIndex a

/-- `"-" * 60` (lines 87, 105). -/
def dashLine : String := String.mk (List.replicate 60 '-')

/-- The final summary line (line 106). -/
def summaryLine (s f : Nat) : String :=
  "Completed! Total successful: " ++ toString s ++ ", Total failed: " ++
    toString f

theorem start_date_valid : validMonth start_date := by decide

/-- The header printed before the loop (lines 85-87). -/
def mainHeader : List String :=
  ["Fetching State of the Parties data from " ++ fmtDate start_date ++
      " to " ++ fmtDate end_date,
    "Total months to process: " ++ toString totalMonthsHeader,
    dashLine]

/-- The loop state as initialised at lines 81-83, over an ambient
filesystem `fs0`. -/
def mainInit (fs0 : Fs) : RunState := ⟨0, 0, fs0, [], [], mainHeader⟩

/-- `main()` (lines 70-106): print the header, run the monthly fetch loop
from `start_date` to `end_date`, then print the summary. -/
def mainRun (http : Request → HttpOutcome) (fs0 : Fs) : RunState :=
  let final := fetchLoop http end_date start_date start_date_valid
    (mainInit fs0)
  { final with
      log := final.log ++
        [dashLine, summaryLine final.success_count final.failure_count] }

/-- The `while` loop is a left fold of the iteration body over the month
sequence of the right length, for valid first-of-month cursor and end
dates. -/
theorem fetchLoop_eq_foldl (http : Request → HttpOutcome) (endD : Date)
    (hve : validMonth endD) (hde : endD.day = 1) :
    ∀ (n : Nat) (cur : Date) (hv : validMonth cur) (hd : cur.day = 1)
      (st : RunState), monthIndex endD + 1 - monthIndex cur = n →
      fetchLoop http endD cur hv st =
        List.foldl (loopStep http) st (monthSeq cur n) := by
  intro n
  induction n with
  | zero =>
    intro cur hv hd st hn
    have hnot : ¬ dateLe cur endD := by
      intro hle
      have := monthIndex_le_of_dateLe hv hle
      omega
    unfold fetchLoop
    rw [dif_neg hnot]
    rfl
  | succ n ih =>
    intro cur hv hd st hn
    have hle : dateLe cur endD :=
      dateLe_of_monthIndex_le hv hve hd hde (by omega)
    unfold fetchLoop
    rw [dif_pos hle]
    rw [ih (addOneMonth cur) (validMonth_addOneMonth cur)
      (day_addOneMonth cur hd) (loopStep http st cur)
      (by rw [monthIndex_addOneMonth]; omega)]
    rfl

/-- The month sequence has the stated length. -/
theorem monthSeq_length : ∀ (n : Nat) (d : Date), (monthSeq d n).length = n
  | 0, _ => rfl
  | n + 1, d => by simp [monthSeq, monthSeq_length n]

/-- Restatement of `get_parties_data` with the let-bound names folded back
into `partiesReq`/`fmtDate`; holds by definitional unfolding. -/
theorem get_parties_data_def (http : Request → HttpOutcome) (d : Date) :
    get_parties_data http d =
      match http (partiesReq d) with
      | HttpOutcome.resp status body =>
          if status = 200 then ⟨[partiesReq d], some body, []⟩
          else
            ⟨[partiesReq d], none,
              ["No data for " ++ fmtDate d ++ " (Status: " ++
                toString status ++ ")"]⟩
      | HttpOutcome.transportError e =>
          ⟨[partiesReq d], none,
            ["Error fetching " ++ fmtDate d ++ ": " ++ e]⟩ := rfl

/-- One iteration increments exactly one of the two counters: the success
counter when a snapshot came back, the failure counter otherwise. -/
theorem loopStep_counters (http : Request → HttpOutcome) (st : RunState)
    (d : Date) :
    (if (get_parties_data http d).result.isSome then
        (loopStep http st d).success_count = st.success_count + 1 ∧
          (loopStep http st d).failure_count = st.failure_count
      else
        (loopStep http st d).success_count = st.success_count ∧
          (loopStep http st d).failure_count = st.failure_count + 1) := by
  simp only [loopStep, stepLogged]
  cases hr : (get_parties_data http d).result <;> simp [hr]

/-- One iteration appends exactly the date `d` to the attempted list. -/
theorem loopStep_attempted (http : Request → HttpOutcome) (st : RunState)
    (d : Date) : (loopStep http st d).attempted = st.attempted ++ [d] := by
  simp only [loopStep, stepLogged]
  cases hr : (get_parties_data http d).result <;> simp [hr]

/-- `get_parties_data` issues exactly the one request `partiesReq d`. -/
theorem get_parties_data_requests (http : Request → HttpOutcome) (d : Date) :
    (get_parties_data http d).requests = [partiesReq d] := by
  rw [get_parties_data_def]
  cases http (partiesReq d) with
  | resp status body => by_cases h : status = 200 <;> simp [h]
  | transportError e => rfl

/-- One iteration appends exactly the one request for `d`. -/
theorem loopStep_requests (http : Request → HttpOutcome) (st : RunState)
    (d : Date) :
    (loopStep http st d).requests = st.requests ++ [partiesReq d] := by
  simp only [loopStep, stepLogged]
  cases hr : (get_parties_data http d).result <;>
    simp [hr, get_parties_data_requests http d]

/-- Counter bookkeeping across a fold: the counters' sum grows by exactly the
number of dates processed. -/
theorem foldl_counters (http : Request → HttpOutcome) :
    ∀ (l : List Date) (st : RunState),
      (List.foldl (loopStep http) st l).success_count +
          (List.foldl (loopStep http) st l).failure_count =
        st.success_count + st.failure_count + l.length := by
  intro l
  induction l with
  | nil => intro st; simp
  | cons d l ih =>
    intro st
    have h := loopStep_counters http st d
    simp only [List.foldl_cons, List.length_cons, ih (loopStep http st d)]
    split at h <;> omega

/-- Attempt bookkeeping across a fold: the dates processed are appended in
order. -/
theorem foldl_attempted (http : Request → HttpOutcome) :
    ∀ (l : List Date) (st : RunState),
      (List.foldl (loopStep http) st l).attempted = st.attempted ++ l := by
  intro l
  induction l with
  | nil => intro st; simp
  | cons d l ih =>
    intro st
    simp [ih (loopStep http st d), loopStep_attempted]

/-- Request bookkeeping across a fold: one request per date, in order. -/
theorem foldl_requests (http : Request → HttpOutcome) :
    ∀ (l : List Date) (st : RunState),
      (List.foldl (loopStep http) st l).requests =
        st.requests ++ l.map partiesReq := by
  intro l
  induction l with
  | nil => intro st; simp
  | cons d l ih =>
    intro st
    simp [ih (loopStep http st d), loopStep_requests]

/-- If a fetch comes back empty, the iteration does not touch the
filesystem. -/
theorem loopStep_fs_of_none (http : Request → HttpOutcome) (st : RunState)
    (d : Date) (h : (get_parties_data http d).result = none) :
    (loopStep http st d).fs = st.fs := by
  simp only [loopStep, stepLogged]
  rw [h]

/-- If every fetch comes back empty, the whole fold leaves the filesystem
untouched. -/
theorem foldl_fs_of_none (http : Request → HttpOutcome)
    (hnone : ∀ d : Date, (get_parties_data http d).result = none) :
    ∀ (l : List Date) (st : RunState),
      (List.foldl (loopStep http) st l).fs = st.fs := by
  intro l
  induction l with
  | nil => intro st; rfl
  | cons d l ih =>
    intro st
    rw [List.foldl_cons, ih (loopStep http st d),
      loopStep_fs_of_none http st d (hnone d)]

/-- The configured range holds 121 months. -/
theorem monthsInRange_main : monthsInRange start_date end_date = 121 := by
  decide

/-- `main`'s loop, as a fold over the 121 months of the configured range. -/
theorem mainRun_loop_eq (http : Request → HttpOutcome) (fs0 : Fs) :
    fetchLoop http end_date start_date start_date_valid (mainInit fs0) =
      List.foldl (loopStep http) (mainInit fs0) (monthSeq start_date 121) :=
  fetchLoop_eq_foldl http end_date (by decide) (by decide) 121 start_date
    start_date_valid (by decide) (mainInit fs0) (by decide)

/-- The filesystem operations the script performs, for the fallible
filesystem model. -/
inductive FsOp where
  | makedirsOp (dir : String) : FsOp
  | writeOp (path : String) : FsOp

/-- `save_parties_data` over a filesystem whose operations may raise an
`OSError` (e.g. disk full), given by the oracle `fsOr` (`some e` = the
operation raises error `e`).  The source has no try/except around lines 57
and 64-65, so a raised error aborts the function: it is modelled as
`Except.error`. -/
def save_parties_dataE (fsOr : FsOp → Option String) (date : Date)
    (data : Json) (output_dir : String) (fs : Fs) :
    Except String (Fs × List String) :=
  match fsOr (FsOp.makedirsOp output_dir) with
  | some e => Except.error e
  | none =>
    let fs1 := makedirs output_dir fs
    let filename := fmtDate date ++ ".json"
    let filepath := output_dir ++ "/" ++ filename
    match fsOr (FsOp.writeOp filepath) with
    | some e => Except.error e
    | none =>
        Except.ok ({ fs1 with files := (filepath, dumps data) :: fs1.files },
          ["Saved: " ++ filename])

/-- The `while` loop of `main` over the fallible filesystem: fetch errors are
caught inside `get_parties_data` (they only yield `None`), but an error
raised inside `save_parties_data` propagates out of the loop — `main` has no
handler either, so the run terminates with that error. -/
def fetchLoopE (fsOr : FsOp → Option String) (http : Request → HttpOutcome)
    (endD : Date) (cur : Date) (hv : validMonth cur) (st : RunState) :
    Except String RunState :=
  if h : dateLe cur endD then
    let fr := get_parties_data http cur
    let st1 := stepLogged http st cur
    match fr.result with
    | some data =>
        match save_parties_dataE fsOr cur data "parties_data" st1.fs with
        | Except.error e => Except.error e
        | Except.ok res =>
            fetchLoopE fsOr http endD (addOneMonth cur)
              (validMonth_addOneMonth cur)
              { st1 with
                  fs := res.1
                  success_count := st1.success_count + 1
                  log := st1.log ++ res.2 }
    | none =>
        fetchLoopE fsOr http endD (addOneMonth cur)
          (validMonth_addOneMonth cur)
          { st1 with failure_count := st1.failure_count + 1 }
  else Except.ok st
termination_by monthIndex endD + 1 - monthIndex cur
decreasing_by
  all_goals
    have h1 := monthIndex_addOneMonth cur
    have h2 := monthIndex_le_of_dateLe hv h
    omega

/-- When no filesystem operation fails, the fallible save agrees with the
total one. -/
theorem save_parties_dataE_ok (fsOr : FsOp → Option String) (date : Date)
    (data : Json) (output_dir : String) (fs : Fs)
    (hok : ∀ op, fsOr op = none) :
    save_parties_dataE fsOr date data output_dir fs =
      Except.ok (save_parties_data date data output_dir fs) := by
  unfold save_parties_dataE save_parties_data
  simp only [hok]

/-- When no filesystem operation fails, the fallible loop agrees with the
total loop: in particular fetch failures of any kind never abort the run. -/
theorem fetchLoopE_ok_of_fsOk (fsOr : FsOp → Option String)
    (http : Request → HttpOutcome) (endD : Date) (hve : validMonth endD)
    (hde : endD.day = 1) (hok : ∀ op, fsOr op = none) :
    ∀ (n : Nat) (cur : Date) (hv : validMonth cur) (hd : cur.day = 1)
      (st : RunState), monthIndex endD + 1 - monthIndex cur = n →
      fetchLoopE fsOr http endD cur hv st =
        Except.ok (fetchLoop http endD cur hv st) := by
  intro n
  induction n with
  | zero =>
    intro cur hv hd st hn
    have hnot : ¬ dateLe cur endD := by
      intro hle
      have := monthIndex_le_of_dateLe hv hle
      omega
    unfold fetchLoopE fetchLoop
    rw [dif_neg hnot, dif_neg hnot]
  | succ n ih =>
    intro cur hv hd st hn
    have hle : dateLe cur endD :=
      dateLe_of_monthIndex_le hv hve hd hde (by omega)
    have hrec := ih (addOneMonth cur) (validMonth_addOneMonth cur)
      (day_addOneMonth cur hd) (loopStep http st cur)
      (by rw [monthIndex_addOneMonth]; omega)
    unfold fetchLoopE fetchLoop
    rw [dif_pos hle, dif_pos hle]
    simp only [loopStep, stepLogged] at hrec ⊢
    cases hr : (get_parties_data http cur).result with
    | none => simp only [hr] at hrec ⊢; exact hrec
    | some data =>
      simp only [hr] at hrec ⊢
      rw [save_parties_dataE_ok fsOr cur data "parties_data" _ hok]
      simpa using hrec

/-- C1: each iteration of `main`'s loop increments exactly one of the two
counters (their sum grows by exactly one per date), and at the final summary
the sum of the success and failure counters equals the number of months in
the configured inclusive range, namely 121. -/
theorem c1_counters_sum (http : Request → HttpOutcome) (fs0 : Fs)
    (st : RunState) (d : Date) :
    (loopStep http st d).success_count + (loopStep http st d).failure_count =
        st.success_count + st.failure_count + 1
  ∧ (mainRun http fs0).success_count + (mainRun http fs0).failure_count =
        monthsInRange start_date end_date
  ∧ monthsInRange start_date end_date = 121 := by
  refine ⟨?_, ?_, by decide⟩
  · have h := loopStep_counters http st d
    split at h <;> omega
  · have h := foldl_counters http (monthSeq start_date 121) (mainInit fs0)
    rw [monthSeq_length] at h
    have h0 : (mainInit fs0).success_count = 0 := rfl
    have h1 : (mainInit fs0).failure_count = 0 := rfl
    simp only [mainRun, mainRun_loop_eq, monthsInRange_main]
    omega

/-- Consecutive entries of a month sequence are one `addOneMonth` step
apart. -/
theorem monthSeq_chain :
    ∀ (n : Nat) (d : Date),
      List.Chain' (fun a b => b = addOneMonth a) (monthSeq d n)
  | 0, _ => List.chain'_nil
  | 1, _ => List.chain'_singleton _
  | n + 2, d => by
    rw [monthSeq, monthSeq]
    exact List.Chain'.cons rfl (by rw [← monthSeq] ; exact monthSeq_chain (n + 1) (addOneMonth d))

set_option maxRecDepth 8000 in
/-- C2: the loop attempts a fetch for exactly the ascending month sequence
from `start_date` to `end_date` inclusive: 121 first-of-month dates, each
consecutive pair one calendar month apart, no duplicates and none skipped,
with exactly one HTTP request per attempted date. -/
theorem c2_each_month_once (http : Request → HttpOutcome) (fs0 : Fs) :
    (mainRun http fs0).attempted = monthSeq start_date 121
  ∧ (monthSeq start_date 121).length = 121
  ∧ (monthSeq start_date 121).head? = some start_date
  ∧ (monthSeq start_date 121).getLast? = some end_date
  ∧ (monthSeq start_date 121).Nodup
  ∧ List.Chain' (fun a b => b = addOneMonth a) (monthSeq start_date 121)
  ∧ List.Pairwise (fun a b => monthIndex a < monthIndex b)
      (monthSeq start_date 121)
  ∧ (monthSeq start_date 121).all (fun d => d.day == 1) = true
  ∧ (mainRun http fs0).requests = (monthSeq start_date 121).map partiesReq := by
  refine ⟨?_, by decide, by decide, by decide, by decide,
    monthSeq_chain 121 start_date, by decide, by decide, ?_⟩
  · simp only [mainRun, mainRun_loop_eq]
    rw [foldl_attempted]
    rfl
  · simp only [mainRun, mainRun_loop_eq]
    rw [foldl_requests]
    rfl

/-- C3: `get_parties_data` issues exactly one GET with timeout 10 to the
endpoint template with the date formatted `YYYY-MM-DD`; on status 200 it
returns the parsed body, and on any non-200 status it prints the status code
and returns `None` — there is no retry. -/
theorem c3_fetch_behaviour (http : Request → HttpOutcome) (d : Date) :
    (get_parties_data http d).requests = [partiesReq d]
  ∧ (partiesReq d).timeout = 10
  ∧ (partiesReq d).url =
      "https://members-api.parliament.uk/api/Parties/StateOfTheParties/1/" ++
        fmtDate d
  ∧ fmtDate ⟨1990, 2, 1⟩ = "1990-02-01"
  ∧ (∀ body, http (partiesReq d) = HttpOutcome.resp 200 body →
      get_parties_data http d = ⟨[partiesReq d], some body, []⟩)
  ∧ (∀ status body, http (partiesReq d) = HttpOutcome.resp status body →
      status ≠ 200 →
      (get_parties_data http d).result = none ∧
        (get_parties_data http d).log =
          ["No data for " ++ fmtDate d ++ " (Status: " ++ toString status ++
            ")"]) := by
  refine ⟨get_parties_data_requests http d, rfl, rfl, by decide, ?_, ?_⟩
  · intro body h
    rw [get_parties_data_def, h]
    simp
  · intro status body h hs
    rw [get_parties_data_def, h]
    simp [hs]

theorem c3_witness :
    get_parties_data (fun _ => HttpOutcome.resp 200 Json.null) ⟨1990, 2, 1⟩ =
      ⟨[partiesReq ⟨1990, 2, 1⟩], some Json.null, []⟩
  ∧ (get_parties_data (fun _ => HttpOutcome.resp 404 Json.null)
        ⟨1990, 2, 1⟩).result = none :=
  ⟨(c3_fetch_behaviour (fun _ => HttpOutcome.resp 200 Json.null)
        ⟨1990, 2, 1⟩).2.2.2.2.1 Json.null rfl,
    ((c3_fetch_behaviour (fun _ => HttpOutcome.resp 404 Json.null)
        ⟨1990, 2, 1⟩).2.2.2.2.2 404 Json.null rfl (by decide)).1⟩

/-- C4: on a transport-level failure `get_parties_data` prints the error and
returns `None` (no exception reaches the caller); in the loop this increments
the failure counter, writes no file, and the loop proceeds to the next
month. -/
theorem c4_transport_error_nonfatal (http : Request → HttpOutcome) (d : Date)
    (e : String) (st : RunState) (endD : Date) (hv : validMonth d)
    (h : http (partiesReq d) = HttpOutcome.transportError e) :
    (get_parties_data http d).result = none
  ∧ (get_parties_data http d).log =
      ["Error fetching " ++ fmtDate d ++ ": " ++ e]
  ∧ (loopStep http st d).fs = st.fs
  ∧ (loopStep http st d).failure_count = st.failure_count + 1
  ∧ (loopStep http st d).success_count = st.success_count
  ∧ (dateLe d endD →
      fetchLoop http endD d hv st =
        fetchLoop http endD (addOneMonth d) (validMonth_addOneMonth d)
          (loopStep http st d)) := by
  have hres : (get_parties_data http d).result = none := by
    rw [get_parties_data_def, h]
  have hc := loopStep_counters http st d
  rw [hres] at hc
  simp only [Option.isSome_none, Bool.false_eq_true, if_false] at hc
  refine ⟨hres, ?_, loopStep_fs_of_none http st d hres, hc.2, hc.1, ?_⟩
  · rw [get_parties_data_def, h]
  · intro hle
    conv_lhs => rw [fetchLoop]
    rw [dif_pos hle]

theorem c4_witness :
    (get_parties_data (fun _ => HttpOutcome.transportError "timed out")
        ⟨1990, 1, 1⟩).result = none
  ∧ (loopStep (fun _ => HttpOutcome.transportError "timed out")
        (mainInit ⟨[], []⟩) ⟨1990, 1, 1⟩).fs = (mainInit ⟨[], []⟩).fs
  ∧ fetchLoop (fun _ => HttpOutcome.transportError "timed out") ⟨1990, 1, 1⟩
        ⟨1990, 1, 1⟩ (by decide) (mainInit ⟨[], []⟩) =
      fetchLoop (fun _ => HttpOutcome.transportError "timed out") ⟨1990, 1, 1⟩
        (addOneMonth ⟨1990, 1, 1⟩) (validMonth_addOneMonth ⟨1990, 1, 1⟩)
        (loopStep (fun _ => HttpOutcome.transportError "timed out")
          (mainInit ⟨[], []⟩) ⟨1990, 1, 1⟩) :=
  ⟨(c4_transport_error_nonfatal _ ⟨1990, 1, 1⟩ "timed out" (mainInit ⟨[], []⟩)
      ⟨1990, 1, 1⟩ (by decide) rfl).1,
    (c4_transport_error_nonfatal _ ⟨1990, 1, 1⟩ "timed out"
      (mainInit ⟨[], []⟩) ⟨1990, 1, 1⟩ (by decide) rfl).2.2.1,
    (c4_transport_error_nonfatal _ ⟨1990, 1, 1⟩ "timed out"
      (mainInit ⟨[], []⟩) ⟨1990, 1, 1⟩ (by decide) rfl).2.2.2.2.2
      (by decide)⟩

/-- C5: `save_parties_data` ensures the output directory exists (idempotent
create), writes the `indent=2, ensure_ascii=False` JSON serialisation of the
snapshot to `<dir>/YYYY-MM-DD.json` — overwriting whatever was there, so a
re-run succeeds and yields the same content — and non-ASCII characters are
emitted literally while nesting is indented. -/
theorem c5_persist (date : Date) (data : Json) (output_dir : String)
    (fs : Fs) :
    output_dir ∈ (save_parties_data date data output_dir fs).1.dirs
  ∧ fsRead (save_parties_data date data output_dir fs).1
      (output_dir ++ "/" ++ (fmtDate date ++ ".json")) = some (dumps data)
  ∧ (save_parties_data date data output_dir fs).2 =
      ["Saved: " ++ fmtDate date ++ ".json"]
  ∧ makedirs output_dir (makedirs output_dir fs) = makedirs output_dir fs
  ∧ fsRead (save_parties_data date data output_dir
        (save_parties_data date data output_dir fs).1).1
      (output_dir ++ "/" ++ (fmtDate date ++ ".json")) = some (dumps data)
  ∧ (∀ c : Char, 32 ≤ c.toNat → c ≠ '"' → c ≠ '\\' →
      escChar c = String.singleton c)
  ∧ dumps (Json.obj [("k", Json.str "é")]) = "\x7b\n  \"k\": \"é\"\n\x7d" := by
  refine ⟨?_, ?_, rfl, ?_, ?_, ?_, by rfl⟩
  · by_cases hmem : output_dir ∈ fs.dirs <;>
      simp [save_parties_data, makedirs, hmem]
  · simp [save_parties_data, fsRead, lookupFile]
  · by_cases hmem : output_dir ∈ fs.dirs <;> simp [makedirs, hmem]
  · simp [save_parties_data, fsRead, lookupFile]
  · intro c h1 h2 h3
    have hn : ¬ c = '\n' := fun hc => absurd h1 (by subst hc; decide)
    have ht : ¬ c = '\t' := fun hc => absurd h1 (by subst hc; decide)
    have hr : ¬ c = '\r' := fun hc => absurd h1 (by subst hc; decide)
    have h8 : ¬ c.toNat = 8 := by omega
    have h12 : ¬ c.toNat = 12 := by omega
    have hlt : ¬ c.toNat < 32 := by omega
    simp [escChar, h2, h3, hn, ht, hr, h8, h12, hlt]

theorem c5_witness :
    (32 ≤ ('é').toNat ∧ escChar 'é' = String.singleton 'é')
  ∧ "parties_data" ∈
      (save_parties_data ⟨1990, 1, 1⟩ Json.null "parties_data"
        ⟨[], []⟩).1.dirs :=
  ⟨⟨by decide,
      (c5_persist ⟨1990, 1, 1⟩ Json.null "parties_data"
        ⟨[], []⟩).2.2.2.2.2.1 'é' (by decide) (by decide) (by decide)⟩,
    (c5_persist ⟨1990, 1, 1⟩ Json.null "parties_data" ⟨[], []⟩).1⟩

/-- C6: from the 1st of any (valid) month, adding one calendar month yields
the 1st of the next month, with year rollover at December, regardless of
month lengths; e.g. 1990-01-01 → 1990-02-01 and 1990-12-01 → 1991-01-01. -/
theorem c6_advance_first_of_month (d : Date) (hd : d.day = 1)
    (hv : validMonth d) :
    addOneMonth d =
      (if d.month = 12 then Date.mk (d.year + 1) 1 1
        else Date.mk d.year (d.month + 1) 1)
  ∧ addOneMonth ⟨1990, 1, 1⟩ = ⟨1990, 2, 1⟩
  ∧ addOneMonth ⟨1990, 12, 1⟩ = ⟨1991, 1, 1⟩ := by
  refine ⟨?_, by decide, by decide⟩
  obtain ⟨h1, h2⟩ := hv
  have hmin : ∀ y m, min 1 (daysInMonth y m) = 1 :=
    fun y m => Nat.min_eq_left (daysInMonth_pos y m)
  unfold addOneMonth
  simp only [hd, hmin]
  by_cases h12 : d.month = 12
  · rw [if_pos h12]
    simp only [h12, Date.mk.injEq]
  · rw [if_neg h12]
    simp only [Date.mk.injEq]
    refine ⟨by omega, by omega, trivial⟩

theorem c6_witness :
    (⟨1990, 1, 1⟩ : Date).day = 1 ∧ validMonth ⟨1990, 1, 1⟩ ∧
      addOneMonth ⟨1990, 1, 1⟩ = ⟨1990, 2, 1⟩ :=
  ⟨rfl, by decide,
    (c6_advance_first_of_month ⟨1990, 1, 1⟩ rfl (by decide)).2.1⟩

/-- C9: the configured constants are start 1980-01-01 and end 1990-01-01
(the docstring's "1990 to present" does not match the code), the run
performs exactly 121 iterations, and the header's computed month count
equals 121. -/
theorem c9_configured_constants (http : Request → HttpOutcome) (fs0 : Fs) :
    start_date = ⟨1980, 1, 1⟩
  ∧ end_date = ⟨1990, 1, 1⟩
  ∧ totalMonthsHeader = 121
  ∧ (mainRun http fs0).attempted.length = 121 := by
  refine ⟨rfl, rfl, by decide, ?_⟩
  simp only [mainRun, mainRun_loop_eq]
  rw [foldl_attempted]
  simp [mainInit, monthSeq_length]

/-- C10: the output directory is created only inside `save_parties_data`,
which runs only on a successful fetch; a run in which every fetch returns
`None` leaves the filesystem exactly as it was. -/
theorem c10_all_absent_fs_unchanged (http : Request → HttpOutcome) (fs0 : Fs)
    (h : ∀ d : Date, (get_parties_data http d).result = none) :
    (mainRun http fs0).fs = fs0 := by
  simp only [mainRun, mainRun_loop_eq]
  rw [foldl_fs_of_none http h]
  rfl

theorem c10_witness :
    (mainRun (fun _ => HttpOutcome.transportError "connection refused")
      ⟨[], []⟩).fs = ⟨[], []⟩ :=
  c10_all_absent_fs_unchanged _ ⟨[], []⟩ (fun _ => rfl)

/-- The network of the C7 scenario: HTTP 200 for 1990-01-01 and 1990-03-01,
HTTP 404 for everything else (in particular 1990-02-01). -/
def httpC7 : Request → HttpOutcome := fun req =>
  if req.url = partiesUrl ⟨1990, 1, 1⟩ then
    HttpOutcome.resp 200 (Json.obj [("month", Json.str "jan")])
  else if req.url = partiesUrl ⟨1990, 3, 1⟩ then
    HttpOutcome.resp 200 (Json.obj [("month", Json.str "mar")])
  else HttpOutcome.resp 404 Json.null

/-- The loop of `main` run over the range 1990-01-01 .. 1990-03-01 against
`httpC7`, starting from zeroed counters and an empty filesystem. -/
def c7run : RunState :=
  fetchLoop httpC7 ⟨1990, 3, 1⟩ ⟨1990, 1, 1⟩ (by decide)
    ⟨0, 0, ⟨[], []⟩, [], [], []⟩

set_option maxRecDepth 4000 in
/-- C7: in the 1990-01..1990-03 scenario with 200/404/200 responses, files
for January and March exist, none exists for February, the console contains
`No data for 1990-02-01 (Status: 404)`, and the final summary line is
`Completed! Total successful: 2, Total failed: 1`. -/
theorem c7_three_month_scenario :
    (fsRead c7run.fs "parties_data/1990-01-01.json").isSome = true
  ∧ (fsRead c7run.fs "parties_data/1990-03-01.json").isSome = true
  ∧ fsRead c7run.fs "parties_data/1990-02-01.json" = none
  ∧ "No data for 1990-02-01 (Status: 404)" ∈ c7run.log
  ∧ c7run.success_count = 2
  ∧ c7run.failure_count = 1
  ∧ summaryLine c7run.success_count c7run.failure_count =
      "Completed! Total successful: 2, Total failed: 1" := by
  have hrw : c7run =
      List.foldl (loopStep httpC7) ⟨0, 0, ⟨[], []⟩, [], [], []⟩
        (monthSeq ⟨1990, 1, 1⟩ 3) :=
    fetchLoop_eq_foldl httpC7 ⟨1990, 3, 1⟩ (by decide) (by decide) 3
      ⟨1990, 1, 1⟩ (by decide) (by decide) ⟨0, 0, ⟨[], []⟩, [], [], []⟩
      (by decide)
  rw [hrw]
  refine ⟨by decide, by decide, by decide, by decide, by decide, by decide,
    by decide⟩

/-- C8: `save_parties_data` handles no errors — a failure of the directory
creation or of the file write becomes the result of the whole loop (the run
terminates with that error, no further dates are processed), whereas fetch
errors of any kind never abort the run: with a healthy filesystem, the loop
always returns `ok`, whatever the network does. -/
theorem c8_fs_errors_propagate :
    (∀ (fsOr : FsOp → Option String) (d : Date) (data : Json) (dir : String)
        (fs : Fs) (e : String),
        fsOr (FsOp.makedirsOp dir) = some e →
        save_parties_dataE fsOr d data dir fs = Except.error e)
  ∧ (∀ (fsOr : FsOp → Option String) (d : Date) (data : Json) (dir : String)
        (fs : Fs) (e : String),
        fsOr (FsOp.makedirsOp dir) = none →
        fsOr (FsOp.writeOp (dir ++ "/" ++ (fmtDate d ++ ".json"))) = some e →
        save_parties_dataE fsOr d data dir fs = Except.error e)
  ∧ (∀ (fsOr : FsOp → Option String) (http : Request → HttpOutcome)
        (endD cur : Date) (hv : validMonth cur) (st : RunState) (data : Json)
        (e : String),
        dateLe cur endD →
        (get_parties_data http cur).result = some data →
        save_parties_dataE fsOr cur data "parties_data" st.fs =
          Except.error e →
        fetchLoopE fsOr http endD cur hv st = Except.error e)
  ∧ (∀ (fsOr : FsOp → Option String) (http : Request → HttpOutcome)
        (endD cur : Date) (hv : validMonth cur) (st : RunState),
        validMonth endD → endD.day = 1 → cur.day = 1 →
        (∀ op, fsOr op = none) →
        fetchLoopE fsOr http endD cur hv st =
          Except.ok (fetchLoop http endD cur hv st)) := by
  refine ⟨?_, ?_, ?_, ?_⟩
  · intro fsOr d data dir fs e h
    unfold save_parties_dataE
    rw [h]
  · intro fsOr d data dir fs e h1 h2
    unfold save_parties_dataE
    rw [h1]
    simp only
    rw [h2]
  · intro fsOr http endD cur hv st data e hle hres hsave
    rw [fetchLoopE]
    rw [dif_pos hle]
    simp only [stepLogged, hres]
    rw [hsave]
  · intro fsOr http endD cur hv st hve hde hd hok
    exact fetchLoopE_ok_of_fsOk fsOr http endD hve hde hok
      (monthIndex endD + 1 - monthIndex cur) cur hv hd st rfl

theorem c8_witness :
    (save_parties_dataE (fun _ => some "disk full") ⟨1990, 1, 1⟩ Json.null
        "parties_data" ⟨[], []⟩ = Except.error "disk full")
  ∧ (save_parties_dataE
        (fun op => match op with
          | FsOp.makedirsOp _ => none
          | FsOp.writeOp _ => some "disk full")
        ⟨1990, 1, 1⟩ Json.null "parties_data" ⟨[], []⟩ =
      Except.error "disk full")
  ∧ (fetchLoopE (fun _ => some "disk full")
        (fun _ => HttpOutcome.resp 200 Json.null) ⟨1990, 3, 1⟩ ⟨1990, 1, 1⟩
        (by decide) ⟨0, 0, ⟨[], []⟩, [], [], []⟩ = Except.error "disk full")
  ∧ (fetchLoopE (fun _ => none)
        (fun _ => HttpOutcome.transportError "timed out") ⟨1990, 3, 1⟩
        ⟨1990, 1, 1⟩ (by decide) ⟨0, 0, ⟨[], []⟩, [], [], []⟩ =
      Except.ok
        (fetchLoop (fun _ => HttpOutcome.transportError "timed out")
          ⟨1990, 3, 1⟩ ⟨1990, 1, 1⟩ (by decide)
          ⟨0, 0, ⟨[], []⟩, [], [], []⟩)) := by
  refine ⟨?_, ?_, ?_, ?_⟩
  · exact c8_fs_errors_propagate.1 (fun _ => some "disk full") ⟨1990, 1, 1⟩
      Json.null "parties_data" ⟨[], []⟩ "disk full" rfl
  · exact c8_fs_errors_propagate.2.1
      (fun op => match op with
        | FsOp.makedirsOp _ => none
        | FsOp.writeOp _ => some "disk full")
      ⟨1990, 1, 1⟩ Json.null "parties_data" ⟨[], []⟩ "disk full" rfl rfl
  · exact c8_fs_errors_propagate.2.2.1 (fun _ => some "disk full")
      (fun _ => HttpOutcome.resp 200 Json.null) ⟨1990, 3, 1⟩ ⟨1990, 1, 1⟩
      (by decide) ⟨0, 0, ⟨[], []⟩, [], [], []⟩ Json.null "disk full"
      (by decide) rfl
      (c8_fs_errors_propagate.1 (fun _ => some "disk full") ⟨1990, 1, 1⟩
        Json.null "parties_data" ⟨[], []⟩ "disk full" rfl)
  · exact c8_fs_errors_propagate.2.2.2 (fun _ => none)
      (fun _ => HttpOutcome.transportError "timed out") ⟨1990, 3, 1⟩
      ⟨1990, 1, 1⟩ (by decide) ⟨0, 0, ⟨[], []⟩, [], [], []⟩ (by decide) rfl
      rfl (fun _ => rfl)

end FetchParties
